import Mathlib

/-!
Shallow embedding of the jni-bindgen sources under verification:
`src/jni-bindgen/src/emit_rust/methods.rs`, `src/jni-bindgen/src/emit_rust/structs.rs`
and `src/jni-glue/src/vm.rs`.  Pure rendering code becomes Lean string-building
functions; the `io::Write` sink is modelled as the string of bytes written;
collaborators that live outside the embedded files (the `jreflection` data model,
`identifiers.rs`, `known_docs_url.rs`, `fields.rs`, `context.rs`) are modelled as
data or as function fields of the `Context` record, following the spec.
-/

/-- Java basic types, mirroring `jreflection::method::BasicType`
(void, the 8 primitives, and a class reference identified by its JNI path). -/
inductive BasicType where
  | void
  | boolean
  | byte
  | char
  | short
  | int
  | long
  | float
  | double
  | class (path : String)
deriving DecidableEq, Repr

/-- Java method types, mirroring `jreflection::method::Type`:
a single basic type, or an array of `levels` dimensions over a basic element type. -/
inductive MethodType where
  | single (t : BasicType)
  | array (levels : Nat) (inner : BasicType)
deriving DecidableEq, Repr

/-- A reflected Java method, mirroring the fields of `jreflection::Method` that
`emit_rust/methods.rs` reads: name, modifier flags, parsed argument and return
types, and the raw descriptor string. -/
structure JMethod where
  name : String
  is_public : Bool
  is_static : Bool
  is_bridge : Bool
  is_constructor : Bool
  is_static_init : Bool
  deprecated : Bool
  args : List MethodType
  ret : MethodType
  descriptor_str : String
deriving DecidableEq, Repr

/-- A reflected Java field, mirroring the fields of `jreflection::Field` that
`emit_rust/structs.rs` reads through `Field::new` (publicness plus identity). -/
structure JField where
  name : String
  is_public : Bool
  descriptor_str : String
deriving DecidableEq, Repr

/-- A reflected Java class, mirroring the fields of `jreflection::Class` that
`emit_rust/structs.rs` and `emit_rust/methods.rs` read. -/
structure JClass where
  path : String
  is_public : Bool
  is_final : Bool
  is_interface : Bool
  is_enum : Bool
  is_static : Bool
  deprecated : Bool
  super_path : Option String
  interfaces : List String
  methods : List JMethod
  fields : List JField
deriving DecidableEq, Repr

/-- Modelled from the spec: `identifiers.rs` is not under `src/`.  The method
naming styles the embedded code consults: the verbatim style (spec 4.2:
keeps managed-name casing, escapes reserved-word collisions) and the long,
descriptor-qualified style (spec 4.2: appends a descriptor-derived suffix to
guarantee uniqueness across overloads). -/
inductive MethodManglingStyle where
  | java
  | long_signature
deriving DecidableEq, Repr

/-- Modelled from the spec: Rust reserved words that the verbatim mangling style
escapes (spec 4.2, escapes reserved-word collisions). -/
def rust_keywords : List String :=
  ["as", "break", "const", "continue", "crate", "else", "enum", "extern",
   "false", "fn", "for", "if", "impl", "in", "let", "loop", "match", "mod",
   "move", "mut", "pub", "ref", "return", "self", "Self", "static", "struct",
   "super", "trait", "true", "type", "unsafe", "use", "where", "while"]

/-- Modelled from the spec: `identifiers.rs` is not under `src/`.  The base
identifier mangling: constructors (`<init>`) map to `new`; a name made of
identifier characters is kept verbatim, with a reserved-word collision escaped
by a trailing underscore; any other name has no representable mapping and
mangling fails (spec 4.2, `UnmangleableName`). -/
def mangle_base (name : String) : Option String :=
  if name = "<init>" then some "new"
  else if name ≠ "" && name.data.all (fun c => c.isAlphanum || c = '_') then
    some (if rust_keywords.contains name then name ++ "_" else name)
  else none

/-- Modelled from the spec: `identifiers.rs` is not under `src/`.
`mangle(name, descriptor, style) -> Option identifier` (spec 4.2): the verbatim
style ignores the descriptor; the long style appends a descriptor-derived
suffix (modelled as the raw descriptor string, whose uniqueness across
overloads the spec guarantees). -/
def MethodManglingStyle.mangle : MethodManglingStyle → String → String → Option String
  | .java, name, _ => mangle_base name
  | .long_signature, name, d => (mangle_base name).map (fun b => b ++ "_" ++ d)

/-- Modelled from the spec: `identifiers.rs` is not under `src/`.  The resolved
names of a field, as counted by `Struct::write`: a constant field yields one
name, a getter/setter pair yields two (spec 4.3). -/
inductive FieldMangling where
  | const_value (name : String)
  | get_set (get : String) (set : String)
deriving DecidableEq, Repr

/-- Mirrors `config::toml::StaticEnvStyle` as consumed by `Method::emit`. -/
inductive StaticEnvStyle where
  | explicit
  | non_exhaustive
deriving DecidableEq, Repr

/-- The configuration fields `emit_rust/methods.rs` and `emit_rust/structs.rs`
read from `context.config`. -/
structure Config where
  method_naming_style : MethodManglingStyle
  method_naming_style_collision : MethodManglingStyle
  static_env : StaticEnvStyle
  keep_rejected_emits : Bool
  ignore_class_methods : List String
  ignore_class_method_sigs : List String
  rename_class_methods : List (String × String)
  rename_class_method_sigs : List (String × String)

/-- Association-list lookup, modelling `HashMap::get` on the rename tables. -/
def assoc_lookup (l : List (String × String)) (k : String) : Option String :=
  match l with
  | [] => none
  | (k2, v) :: rest => if k2 = k then some v else assoc_lookup rest k

/-- The generation context, mirroring the parts of `emit_rust::Context` the
embedded files read.  `java_to_rust_path`, `throwable_rust_path`,
`method_docs_url`, `class_docs_url`, `field_names` and `field_emit` are
modelled from the spec as abstract collaborator functions, because
`context.rs`, `known_docs_url.rs` and `fields.rs` are not under `src/`. -/
structure Context where
  config : Config
  all_classes : List String
  java_to_rust_path : String → String → Except Unit String
  throwable_rust_path : String → String
  method_docs_url : String → String → Option String
  class_docs_url : String → Option String
  field_names : JField → Option FieldMangling
  field_emit : String → String → JField → String

/-- Modelled from the spec: the Rust standard library `Debug` formatter for
strings, used by the embedded code through `format!("{:?}", s)`: the text is
wrapped in double quotes with quote, backslash, newline, tab, carriage return
and NUL escaped. -/
def escape_debug_char (c : Char) : List Char :=
  if c = '"' then ['\x5c', '"']
  else if c = '\x5c' then ['\x5c', '\x5c']
  else if c = '\n' then ['\x5c', 'n']
  else if c = '\t' then ['\x5c', 't']
  else if c = '\r' then ['\x5c', 'r']
  else if c = '\x00' then ['\x5c', '0']
  else [c]

/-- Modelled from the spec: `format!("{:?}", s)` for a string `s`. -/
def rust_debug (s : String) : String :=
  ⟨'"' :: (s.data.flatMap escape_debug_char ++ ['"'])⟩

/-- Mirrors `emit_cstr` (methods.rs lines 409-413): debug-format the string,
then insert a literal backslash-zero escape just before the final character
(the closing quote). -/
def emit_cstr (s : String) : String :=
  let q := rust_debug s
  ⟨q.data.take (q.data.length - 1) ++ ['\x5c', '0'] ++ q.data.drop (q.data.length - 1)⟩

/-- The per-method emit state of `emit_rust/methods.rs`: the borrowed class,
the reflected method, and the `rust_name`/`mangling_style` pair maintained by
`set_mangling_style`. -/
structure Method where
  jclass : JClass
  java : JMethod
  rust_name : Option String
  mangling_style : MethodManglingStyle

/-- Mirrors `Method::set_mangling_style` (methods.rs lines 33-43): store the
style and recompute `rust_name` by mangling the Java name and descriptor. -/
def Method.set_mangling_style (m : Method) (style : MethodManglingStyle) : Method :=
  { m with
    mangling_style := style,
    rust_name := style.mangle m.java.name m.java.descriptor_str }

/-- Mirrors `Method::new` (methods.rs lines 18-27): construct with the
configured default naming style. -/
def Method.new (ctx : Context) (cls : JClass) (j : JMethod) : Method :=
  Method.set_mangling_style
    { jclass := cls, java := j, rust_name := none, mangling_style := .java }
    ctx.config.method_naming_style

/-- Appends `piece` to `buf` once per loop iteration, mirroring the
`for _ in 0..n { buffer.push_str(piece) }` loops of methods.rs. -/
def push_repeat (n : Nat) (piece : String) (buf : String) : String :=
  match n with
  | 0 => buf
  | k + 1 => push_repeat k piece (buf ++ piece)

/-- Mirrors the inner-element match of the array branches of `Method::emit`
(methods.rs lines 149-179 for arguments and 252-281 for returns): the text
pushed for the innermost element type, plus the reject reasons pushed.
`pos` is the wording of the position, "argument type" or "return type". -/
def array_inner_info (ctx : Context) (mod_ : String) (pos : String) :
    BasicType → String × List String
  | .boolean => ("__jni_bindgen::BooleanArray", [])
  | .byte => ("__jni_bindgen::ByteArray", [])
  | .char => ("__jni_bindgen::CharArray", [])
  | .short => ("__jni_bindgen::ShortArray", [])
  | .int => ("__jni_bindgen::IntArray", [])
  | .long => ("__jni_bindgen::LongArray", [])
  | .float => ("__jni_bindgen::FloatArray", [])
  | .double => ("__jni_bindgen::DoubleArray", [])
  | .class c =>
    let rs := if ctx.all_classes.contains c then []
              else ["ERROR:  missing class for " ++ pos]
    match ctx.java_to_rust_path c mod_ with
    | .ok p =>
      ("__jni_bindgen::ObjectArray<" ++ p ++ ", " ++ ctx.throwable_rust_path mod_ ++ ">", rs)
    | .error _ =>
      ("__jni_bindgen::ObjectArray<???" ++ ", " ++ ctx.throwable_rust_path mod_ ++ ">",
       rs ++ ["ERROR:  Failed to resolve JNI path to Rust path for " ++ pos])
  | .void => ("[()]", ["ERROR:  Arrays of void isn\x27t a thing"])

/-- Mirrors the argument-type match of `Method::emit` (methods.rs lines
113-191): the rendered parameter type, the reject reasons pushed, and the
`param_is_object` flag. -/
def arg_type_info (ctx : Context) (mod_ : String) : MethodType → String × List String × Bool
  | .single .void => ("()", ["ERROR:  Void arguments aren\x27t a thing"], false)
  | .single .boolean => ("bool", [], false)
  | .single .byte => ("i8", [], false)
  | .single .char => ("u16", [], false)
  | .single .short => ("i16", [], false)
  | .single .int => ("i32", [], false)
  | .single .long => ("i64", [], false)
  | .single .float => ("f32", [], false)
  | .single .double => ("f64", [], false)
  | .single (.class c) =>
    let rs := if ctx.all_classes.contains c then []
              else ["ERROR:  missing class for argument type"]
    match ctx.java_to_rust_path c mod_ with
    | .ok p =>
      ("impl __jni_bindgen::std::convert::Into<__jni_bindgen::std::option::Option<&\x27env "
         ++ p ++ ">>", rs, true)
    | .error _ =>
      (rust_debug c,
       rs ++ ["ERROR:  Failed to resolve JNI path to Rust path for argument type"], true)
  | .array levels inner =>
    let buffer :=
      "impl __jni_bindgen::std::convert::Into<__jni_bindgen::std::option::Option<&\x27env "
    let buffer := push_repeat (levels - 1) "__jni_bindgen::ObjectArray<" buffer
    let info := array_inner_info ctx mod_ "argument type" inner
    let buffer := buffer ++ info.1
    let buffer :=
      push_repeat (levels - 1) (", " ++ ctx.throwable_rust_path mod_ ++ ">") buffer
    (buffer ++ ">>", info.2, true)

/-- Mirrors the return-type match of `Method::emit` (methods.rs lines
214-292): the rendered return type and the reject reasons pushed. -/
def ret_decl_info (ctx : Context) (mod_ : String) : MethodType → String × List String
  | .single .void => ("()", [])
  | .single .boolean => ("bool", [])
  | .single .byte => ("i8", [])
  | .single .char => ("u16", [])
  | .single .short => ("i16", [])
  | .single .int => ("i32", [])
  | .single .long => ("i64", [])
  | .single .float => ("f32", [])
  | .single .double => ("f64", [])
  | .single (.class c) =>
    let rs := if ctx.all_classes.contains c then []
              else ["ERROR:  missing class for return type"]
    match ctx.java_to_rust_path c mod_ with
    | .ok p =>
      ("__jni_bindgen::std::option::Option<__jni_bindgen::Local<\x27env, " ++ p ++ ">>", rs)
    | .error _ =>
      (rust_debug c,
       rs ++ ["ERROR:  Failed to resolve JNI path to Rust path for return type"])
  | .array levels inner =>
    if levels = 1 && inner == .void then
      ("???", ["ERROR:  Returning arrays of void isn\x27t a thing"])
    else
      let buffer := "__jni_bindgen::std::option::Option<__jni_bindgen::Local<\x27env, "
      let buffer := push_repeat (levels - 1) "__jni_bindgen::ObjectArray<" buffer
      let info := array_inner_info ctx mod_ "return type" inner
      let buffer := buffer ++ info.1
      let buffer :=
        push_repeat (levels - 1) (", " ++ ctx.throwable_rust_path mod_ ++ ">") buffer
      (buffer ++ ">>", info.2)

/-- Mirrors the dispatch-tag match of `Method::emit` (methods.rs lines
294-307): the fragment spliced into `call_..._method_a`. -/
def ret_method_fragment : MethodType → String
  | .single .void => "void"
  | .single .boolean => "boolean"
  | .single .byte => "byte"
  | .single .char => "char"
  | .single .short => "short"
  | .single .int => "int"
  | .single .long => "long"
  | .single .float => "float"
  | .single .double => "double"
  | .single (.class _) => "object"
  | .array _ _ => "object"

/-- Mirrors the argument loop of `Method::emit` (methods.rs lines 108-212),
threading the contents of `__jni_args`, the parameter declarations, and the
accumulated reject reasons. -/
def args_fold (ctx : Context) (mod_ : String) :
    List MethodType → Nat → String → String → List String → String × String × List String
  | [], _, pa, pd, rs => (pa, pd, rs)
  | a :: rest, i, pa, pd, rs =>
    let info := arg_type_info ctx mod_ a
    let arg_name := "arg" ++ toString i
    let pa := (if pa = "" then pa else pa ++ ", ")
      ++ "__jni_bindgen::AsJValue::as_jvalue(&" ++ arg_name
      ++ (if info.2.2 then ".into()" else "") ++ ")"
    let pd := (if pd = "" then pd else pd ++ ", ") ++ arg_name ++ ": " ++ info.1
    args_fold ctx mod_ rest (i + 1) pa pd (rs ++ info.2.1)

/-- Mirrors the ignore-list test of `Method::emit` (methods.rs lines 56-57),
keyed by class-path and name, or class-path, name and descriptor. -/
def method_ignored (ctx : Context) (m : Method) : Bool :=
  ctx.config.ignore_class_methods.contains (m.jclass.path ++ "\x1f" ++ m.java.name)
  || ctx.config.ignore_class_method_sigs.contains
       (m.jclass.path ++ "\x1f" ++ m.java.name ++ "\x1f" ++ m.java.descriptor_str)

/-- Mirrors the rename-table lookup of `Method::emit` (methods.rs lines 59-63):
the class+name table first, the class+name+descriptor table second. -/
def method_renamed_to (ctx : Context) (m : Method) : Option String :=
  match assoc_lookup ctx.config.rename_class_methods
          (m.jclass.path ++ "\x1f" ++ m.java.name) with
  | some r => some r
  | none => assoc_lookup ctx.config.rename_class_method_sigs
      (m.jclass.path ++ "\x1f" ++ m.java.name ++ "\x1f" ++ m.java.descriptor_str)

/-- Modelled from the spec: the `Debug` rendering of `jreflection` method
flags spliced into the provenance comment (external to `src/`); any
deterministic rendering of the flag set. -/
def flags_debug (j : JMethod) : String :=
  "Flags(public=" ++ toString j.is_public ++ ", static=" ++ toString j.is_static
    ++ ", bridge=" ++ toString j.is_bridge ++ ", constructor=" ++ toString j.is_constructor
    ++ ", static_init=" ++ toString j.is_static_init
    ++ ", deprecated=" ++ toString j.deprecated ++ ")"

/-- Concatenation of a sequence of written chunks, modelling consecutive
`write!` calls on the output stream. -/
def str_concat (l : List String) : String :=
  l.foldr (fun a b => a ++ b) ""

/-- The observable results of one `Method::emit` call: the frozen reject
reasons, the resolved method name, the rendered return type, the dispatch
fragment, and the bytes written to the output stream. -/
structure EmitResult where
  reasons : List String
  method_name : String
  ret_decl : String
  ret_fragment : String
  output : String

/-- Mirrors the method-name selection of `Method::emit` (methods.rs lines
67-74): a rename wins, else the mangled name, else the raw Java name plus a
reject reason. -/
def method_name_step (ctx : Context) (m : Method) : String × List String :=
  match method_renamed_to ctx m with
  | some r => (r, [])
  | none =>
    match m.rust_name with
    | some n => (n, [])
    | none => (m.java.name, ["ERROR:  Failed to mangle method name"])

/-- Mirrors the flag checks of `Method::emit` (methods.rs lines 76-81):
non-public and bridge reject reasons, in source order. -/
def flag_reject_reasons (m : Method) : List String :=
  (if m.java.is_public then [] else ["Non-public method"])
    ++ (if m.java.is_bridge then ["Bridge method - type erasure"] else [])

/-- Mirrors the ignore check of `Method::emit` (methods.rs lines 86-88). -/
def ignore_reject_reasons (ctx : Context) (m : Method) : List String :=
  if method_ignored ctx m then ["[[ignore]]d"] else []

/-- Mirrors the `params_decl` initialisation of `Method::emit` (methods.rs
lines 96-106): the environment parameter for constructors and statics, the
borrowed receiver otherwise; plus the reject reason for the non-exhaustive
static-environment style. -/
def params_decl_init (ctx : Context) (m : Method) : String × List String :=
  if m.java.is_constructor || m.java.is_static then
    match ctx.config.static_env with
    | .explicit => ("__jni_env: __jni_bindgen::Env<\x27env>", [])
    | .non_exhaustive =>
      ("", ["ERROR:  StaticEnvStyle::__NonExhaustive is invalid, silly goose!"])
  else ("&\x27env self", [])

/-- Mirrors the constructor special case of `Method::emit` (methods.rs lines
309-316): a void-returning constructor is re-typed to an owned local
reference to `Self` under the object dispatch tag; a non-void-returning
constructor records an invariant-violation reject reason. -/
def ctor_adjust (m : Method) (frag ret_decl : String) : String × String × List String :=
  if m.java.is_constructor then
    if m.java.ret = .single .void then
      ("object", "__jni_bindgen::Local<\x27env, Self>", [])
    else (frag, ret_decl, ["ERROR:  Constructor should\x27ve returned void"])
  else (frag, ret_decl, [])

/-- Mirrors `Method::emit` (methods.rs lines 45-406) as a pure function from
the method state to the frozen reject reasons, resolved name, return
rendering, dispatch fragment and the bytes written, assembled from the staged
helpers above in source order.  A static class initializer returns early
having written nothing (lines 82-85); a rejected method under
`keep_rejected_emits == false` likewise writes nothing (lines 319-326). -/
def Method.emit_parts (ctx : Context) (indent : String) (mod_ : String) (m : Method) :
    EmitResult :=
  let ns := method_name_step ctx m
  let method_name := ns.1
  if m.java.is_static_init then
    { reasons := ns.2 ++ flag_reject_reasons m
        ++ ["Static class constructor - never needs to be called by Rust."],
      method_name := method_name, ret_decl := "", ret_fragment := "", output := "" }
  else
  let ds := params_decl_init ctx m
  let folded := args_fold ctx mod_ m.java.args 0 "" ds.1 []
  let params_array := folded.1
  let params_decl := folded.2.1
  let ret_info := ret_decl_info ctx mod_ m.java.ret
  let cs := ctor_adjust m (ret_method_fragment m.java.ret) ret_info.1
  let ret_fragment := cs.1
  let ret_decl := cs.2.1
  let rs := ns.2 ++ flag_reject_reasons m ++ ignore_reject_reasons ctx m
    ++ ds.2 ++ folded.2.2 ++ ret_info.2 ++ cs.2.2
  let indent_f := if rs = [] then indent ++ "        " else indent ++ "        // "
  let access := if m.java.is_public then "pub " else ""
  let attributes := if m.java.deprecated then "#[deprecated] " else ""
  let out := str_concat
    ["\n",
     str_concat (rs.map (fun r => indent_f ++ "// Not emitting: " ++ r ++ "\n")),
     (match ctx.method_docs_url m.jclass.path m.java.name with
      | some url => indent_f ++ "/// " ++ url ++ "\n"
      | none => indent_f ++ "/// " ++ m.java.name ++ "\n"),
     indent_f ++ attributes ++ access ++ "fn " ++ method_name ++ "<\x27env>("
       ++ params_decl ++ ") -> __jni_bindgen::std::result::Result<" ++ ret_decl
       ++ ", __jni_bindgen::Local<\x27env, " ++ ctx.throwable_rust_path mod_ ++ ">> \x7b\n",
     indent_f ++ "    // class.path == " ++ rust_debug m.jclass.path
       ++ ", java.flags == " ++ flags_debug m.java
       ++ ", .name == " ++ rust_debug m.java.name
       ++ ", .descriptor == " ++ rust_debug m.java.descriptor_str ++ "\n",
     indent_f ++ "    unsafe \x7b\n",
     indent_f ++ "        let __jni_args = [" ++ params_array ++ "];\n",
     (if m.java.is_constructor || m.java.is_static then
        match ctx.config.static_env with
        | .explicit => ""
        | .non_exhaustive => indent_f ++ "    let __jni_env = ...?;\n"
      else
        indent_f ++ "        let __jni_env = __jni_bindgen::Env::from_raw(self.0.env);\n"),
     indent_f ++ "        let (__jni_class, __jni_method) = __jni_env.require_class_"
       ++ (if m.java.is_static then "static_" else "") ++ "method("
       ++ emit_cstr m.jclass.path ++ ", " ++ emit_cstr m.java.name ++ ", "
       ++ emit_cstr m.java.descriptor_str ++ ");\n",
     (if m.java.is_constructor then
        indent_f ++ "        __jni_env.new_object_a(__jni_class, __jni_method, __jni_args.as_ptr())\n"
      else if m.java.is_static then
        indent_f ++ "        __jni_env.call_static_" ++ ret_fragment
          ++ "_method_a(__jni_class, __jni_method, __jni_args.as_ptr())\n"
      else
        indent_f ++ "        __jni_env.call_" ++ ret_fragment
          ++ "_method_a(self.0.object, __jni_method, __jni_args.as_ptr())\n"),
     indent_f ++ "    \x7d\n",
     indent_f ++ "\x7d\n"]
  { reasons := rs, method_name := method_name, ret_decl := ret_decl,
    ret_fragment := ret_fragment,
    output := if rs ≠ [] && !ctx.config.keep_rejected_emits then "" else out }

/-- The bytes `Method::emit` writes to its output stream. -/
def Method.emit (ctx : Context) (indent : String) (mod_ : String) (m : Method) : String :=
  (Method.emit_parts ctx indent mod_ m).output

/-- The struct paths record, mirroring `StructPaths` (structs.rs lines 14-18). -/
structure StructPaths where
  mod_ : String
  struct_name : String
deriving DecidableEq, Repr

/-- One class binding, mirroring `Struct` (structs.rs lines 29-33). -/
structure Struct where
  rust : StructPaths
  java : JClass

/-- The methods of a class as first constructed by `Struct::write`
(structs.rs lines 160-165), before collision resolution. -/
def Struct.initial_methods (ctx : Context) (s : Struct) : List Method :=
  s.java.methods.map (fun jm => Method.new ctx s.java jm)

/-- The contribution of the public fields to the `id_repeats` tally of
`Struct::write` (structs.rs lines 182-196): non-public fields are skipped;
constant fields count their single name once; getter/setter pairs count each
accessor name; unmangleable fields count nothing. -/
def field_name_count (ctx : Context) (fields : List JField) (n : String) : Nat :=
  fields.foldl
    (fun acc f =>
      if !f.is_public then acc
      else
        match ctx.field_names f with
        | some (.const_value name) => if name = n then acc + 1 else acc
        | some (.get_set g s) =>
          acc + (if g = n then 1 else 0) + (if s = n then 1 else 0)
        | none => acc)
    0

/-- The `id_repeats` tally of `Struct::write` (structs.rs lines 158-196) for
one name: public methods whose mangled name resolved to it (lines 173-180)
plus the public-field contributions. -/
def id_repeats (ctx : Context) (methods : List Method) (fields : List JField)
    (n : String) : Nat :=
  methods.countP (fun m => m.java.is_public && m.rust_name == some n)
    + field_name_count ctx fields n

/-- The collision-resolution step of `Struct::write` (structs.rs lines
198-206): a method whose resolved name repeats is re-styled with the
configured collision mangling style before being emitted. -/
def resolve_method (ctx : Context) (repeats : String → Nat) (m : Method) : Method :=
  match m.rust_name with
  | some n => if repeats n > 1 then m.set_mangling_style ctx.config.method_naming_style_collision else m
  | none => m

/-- The methods of a class exactly as `Struct::write` passes them to
`Method::emit`: constructed, tallied, and collision-resolved. -/
def Struct.resolved_methods (ctx : Context) (s : Struct) : List Method :=
  let methods := Struct.initial_methods ctx s
  methods.map (resolve_method ctx (id_repeats ctx methods s.java.fields))

/-- Mirrors the interface loop of `Struct::write` (structs.rs lines 140-155):
interfaces absent from the known-class set are skipped; the first rendered
interface is preceded by `implements `; a failed path resolution is an
`unwrap` panic, modelled as `none`. -/
def interfaces_fold (ctx : Context) (mod_ : String) :
    List String → Bool → String → Option (Bool × String)
  | [], impl, buf => some (impl, buf)
  | i :: rest, impl, buf =>
    if !ctx.all_classes.contains i then interfaces_fold ctx mod_ rest impl buf
    else
      let buf := buf ++ ", "
      let step : Bool × String := if !impl then (true, buf ++ "implements ") else (impl, buf)
      match ctx.java_to_rust_path i mod_ with
      | .ok p => interfaces_fold ctx mod_ rest step.1 (step.2 ++ p)
      | .error _ => none

/-- The header `Struct::write` renders before any member (structs.rs lines
90-156): the doc line, the declaration line with super-class and surviving
interfaces, up to the opening brace.  A failed `unwrap` of a path resolution
is modelled as `none`. -/
def Struct.header (ctx : Context) (indent : String) (s : Struct) : Option String :=
  let keyword :=
    if s.java.is_interface then "interface"
    else if s.java.is_enum then "enum"
    else if s.java.is_static then "static java"
    else if s.java.is_final then "final class"
    else "class"
  let visibility := if s.java.is_public then "public" else "private"
  let attributes := if s.java.deprecated then "#[deprecated] " else ""
  let super_step : Option String :=
    match s.java.super_path with
    | some sp =>
      match ctx.java_to_rust_path sp s.rust.mod_ with
      | .ok p => some p
      | .error _ => none
    | none => some "()"
  match super_step with
  | none => none
  | some super_path =>
    match interfaces_fold ctx s.rust.mod_ s.java.interfaces false "" with
    | none => none
    | some ifaces =>
      some ("\n"
        ++ indent ++ "__jni_bindgen! \x7b\n"
        ++ (match ctx.class_docs_url s.java.path with
            | some url =>
              indent ++ "    /// " ++ visibility ++ " " ++ keyword ++ " " ++ url ++ "\n"
            | none =>
              indent ++ "    /// " ++ visibility ++ " " ++ keyword ++ " "
                ++ s.java.path ++ "\n")
        ++ indent ++ "    " ++ attributes ++ visibility ++ " " ++ keyword ++ " "
          ++ s.rust.struct_name ++ " (" ++ rust_debug (s.java.path ++ "\x00")
          ++ ") extends " ++ super_path
        ++ ifaces.2 ++ " \x7b\n")

/-- Mirrors `Struct::write` (structs.rs lines 89-217): the header, every
method emitted after collision resolution, every field emitted by the field
collaborator, and the closing braces. -/
def Struct.write (ctx : Context) (indent : String) (s : Struct) : Option String :=
  match Struct.header ctx indent s with
  | none => none
  | some head =>
    some (head
      ++ str_concat ((Struct.resolved_methods ctx s).map
           (fun m => Method.emit ctx indent s.rust.mod_ m))
      ++ str_concat (s.java.fields.map (fun f => ctx.field_emit indent s.rust.mod_ f))
      ++ indent ++ "    \x7d\n"
      ++ indent ++ "\x7d\n")

/-- The `jni_sys` status codes `VM::with_env` distinguishes. -/
def JNI_OK : Int := 0

/-- The detached-thread status from `GetEnv`. -/
def JNI_EDETACHED : Int := -2

/-- The unsupported-version status from `GetEnv`. -/
def JNI_EVERSION : Int := -3

/-- The behavior of the JNI invocation interface for the current thread, as
observed by one `VM::with_env` call: what `GetEnv` returns and writes, and
what `AttachCurrentThread` returns and writes. -/
structure VMBehavior where
  get_env_result : Int
  get_env_handle : Nat
  attach_result : Int
  attach_handle : Nat
deriving DecidableEq, Repr

/-- The observable foreign calls and callback invocation made by
`VM::with_env`. -/
inductive VMEvent where
  | get_env_call
  | attach_current_thread_call
  | callback_call (env : Nat)
deriving DecidableEq, Repr

/-- Mirrors `VM::with_env` (vm.rs lines 37-51): call `GetEnv`; on `JNI_OK`
run the callback on the handle `GetEnv` produced; on `JNI_EDETACHED` call
`AttachCurrentThread` and run the callback on its handle when it succeeds;
every other outcome panics, modelled as `none` with the partial call trace. -/
def VM.with_env_trace (b : VMBehavior) : List VMEvent × Option Nat :=
  if b.get_env_result = JNI_OK then
    ([.get_env_call, .callback_call b.get_env_handle], some b.get_env_handle)
  else if b.get_env_result = JNI_EDETACHED then
    if b.attach_result = JNI_OK then
      ([.get_env_call, .attach_current_thread_call, .callback_call b.attach_handle],
       some b.attach_handle)
    else ([.get_env_call, .attach_current_thread_call], none)
  else ([.get_env_call], none)

/-- Substring containment over the rendered output, via list infixes of the
character data. -/
abbrev str_contains (hay needle : String) : Prop := needle.data <:+: hay.data

lemma str_contains_of_left {a n : String} (b : String) (h : str_contains a n) :
    str_contains (a ++ b) n := by
  have h2 : n.data <:+: a.data ++ b.data := h.trans (List.prefix_append a.data b.data).isInfix
  simpa [str_contains, String.data_append] using h2

lemma str_contains_of_right {b n : String} (a : String) (h : str_contains b n) :
    str_contains (a ++ b) n := by
  have h2 : n.data <:+: a.data ++ b.data := h.trans (List.suffix_append a.data b.data).isInfix
  simpa [str_contains, String.data_append] using h2

lemma str_contains_self (s : String) : str_contains s s := List.infix_refl _

lemma str_concat_cons (a : String) (l : List String) :
    str_concat (a :: l) = a ++ str_concat l := rfl

lemma str_contains_concat_of_mem {x : String} {l : List String} (hx : x ∈ l)
    {n : String} (h : str_contains x n) : str_contains (str_concat l) n := by
  induction l with
  | nil => cases hx
  | cons a rest ih =>
    rcases List.mem_cons.mp hx with h1 | h1
    · subst h1; exact str_contains_of_left _ h
    · rw [str_concat_cons]; exact str_contains_of_right _ (ih h1)

lemma args_fold_reasons (ctx : Context) (mod_ : String) :
    ∀ (args : List MethodType) (i : Nat) (pa pd : String) (rs : List String),
    (args_fold ctx mod_ args i pa pd rs).2.2 =
      rs ++ args.flatMap (fun a => (arg_type_info ctx mod_ a).2.1) := by
  intro args
  induction args with
  | nil => intro i pa pd rs; simp [args_fold]
  | cons a rest ih =>
    intro i pa pd rs
    rw [args_fold, ih]
    simp [List.flatMap_cons, List.append_assoc]

lemma emit_parts_reasons (ctx : Context) (indent mod_ : String) (m : Method)
    (hsi : m.java.is_static_init = false) :
    (Method.emit_parts ctx indent mod_ m).reasons =
      (method_name_step ctx m).2 ++ flag_reject_reasons m
        ++ ignore_reject_reasons ctx m ++ (params_decl_init ctx m).2
        ++ m.java.args.flatMap (fun a => (arg_type_info ctx mod_ a).2.1)
        ++ (ret_decl_info ctx mod_ m.java.ret).2
        ++ (ctor_adjust m (ret_method_fragment m.java.ret)
             (ret_decl_info ctx mod_ m.java.ret).1).2.2 := by
  unfold Method.emit_parts
  simp only [hsi, Bool.false_eq_true, if_false, args_fold_reasons, List.nil_append]

lemma emit_parts_method_name (ctx : Context) (indent mod_ : String) (m : Method) :
    (Method.emit_parts ctx indent mod_ m).method_name = (method_name_step ctx m).1 := by
  unfold Method.emit_parts
  split <;> rfl

lemma emit_parts_ret (ctx : Context) (indent mod_ : String) (m : Method)
    (hsi : m.java.is_static_init = false) :
    (Method.emit_parts ctx indent mod_ m).ret_decl =
        (ctor_adjust m (ret_method_fragment m.java.ret)
          (ret_decl_info ctx mod_ m.java.ret).1).2.1
      ∧ (Method.emit_parts ctx indent mod_ m).ret_fragment =
        (ctor_adjust m (ret_method_fragment m.java.ret)
          (ret_decl_info ctx mod_ m.java.ret).1).1 := by
  unfold Method.emit_parts
  simp only [hsi, Bool.false_eq_true, if_false]
  constructor <;> first | rfl | trivial

lemma emit_parts_output_suppressed (ctx : Context) (indent mod_ : String) (m : Method)
    (hsi : m.java.is_static_init = false)
    (hkeep : ctx.config.keep_rejected_emits = false)
    (hne : (Method.emit_parts ctx indent mod_ m).reasons ≠ []) :
    (Method.emit_parts ctx indent mod_ m).output = "" := by
  rw [emit_parts_reasons ctx indent mod_ m hsi] at hne
  unfold Method.emit_parts
  simp only [hsi, Bool.false_eq_true, if_false, args_fold_reasons, List.nil_append]
  rw [if_pos]
  simp only [hkeep, Bool.not_false, Bool.and_true, decide_eq_true_eq]
  exact hne

lemma emit_parts_output_ne_of_keep (ctx : Context) (indent mod_ : String) (m : Method)
    (hsi : m.java.is_static_init = false)
    (hkeep : ctx.config.keep_rejected_emits = true) :
    (Method.emit_parts ctx indent mod_ m).output ≠ "" := by
  unfold Method.emit_parts
  simp only [hsi, Bool.false_eq_true, if_false, args_fold_reasons, List.nil_append]
  rw [if_neg]
  · intro h
    have hd := congrArg String.data h
    rw [str_concat_cons, String.data_append] at hd
    simp at hd
  · rw [hkeep]
    simp

lemma emit_parts_reason_line (ctx : Context) (indent mod_ : String) (m : Method)
    (hsi : m.java.is_static_init = false)
    (hout : (Method.emit_parts ctx indent mod_ m).output ≠ "")
    (r : String) (hr : r ∈ (Method.emit_parts ctx indent mod_ m).reasons) :
    str_contains (Method.emit_parts ctx indent mod_ m).output
      ("// Not emitting: " ++ r) := by
  unfold Method.emit_parts at hout hr ⊢
  simp only [hsi, Bool.false_eq_true, if_false, args_fold_reasons, List.nil_append]
    at hout hr ⊢
  split at hout
  · exact absurd rfl hout
  · rename_i hcond
    rw [if_neg hcond]
    apply str_contains_concat_of_mem
      (List.mem_cons_of_mem _ (List.mem_cons_self _ _))
    apply str_contains_concat_of_mem (List.mem_map_of_mem _ hr)
    apply str_contains_of_left
    rw [String.append_assoc]
    exact str_contains_of_right _ (str_contains_self _)

lemma two_le_countP {α} (l : List α) (p : α → Bool) (i j : Fin l.length)
    (hij : i.val < j.val) (hpi : p (l.get i) = true) (hpj : p (l.get j) = true) :
    2 ≤ l.countP p := by
  have h1 : l.get i ∈ l.take j.val := by
    have hg : (l.take j.val)[i.val]? = some (l.get i) := by
      rw [List.getElem?_take_of_lt hij]
      simp [List.getElem?_eq_getElem i.isLt]
    exact List.getElem?_mem hg
  have hlen : 0 < (l.drop j.val).length := by
    simp only [List.length_drop]
    omega
  have h2 : l.get j ∈ l.drop j.val := by
    have hg : (l.drop j.val).get ⟨0, hlen⟩ = l.get j := by
      simp [List.get_eq_getElem, List.getElem_drop]
    rw [← hg]
    exact List.get_mem _ _ _
  have c1 : 0 < (l.take j.val).countP p := List.countP_pos_iff.mpr ⟨_, h1, hpi⟩
  have c2 : 0 < (l.drop j.val).countP p := List.countP_pos_iff.mpr ⟨_, h2, hpj⟩
  have hc : (l.take j.val).countP p + (l.drop j.val).countP p = l.countP p := by
    rw [← List.countP_append, List.take_append_drop]
  omega

lemma two_le_countP_of_ne {α} (l : List α) (p : α → Bool) (i j : Fin l.length)
    (hij : i ≠ j) (hpi : p (l.get i) = true) (hpj : p (l.get j) = true) :
    2 ≤ l.countP p := by
  rcases lt_trichotomy i.val j.val with h | h | h
  · exact two_le_countP l p i j h hpi hpj
  · exact absurd (Fin.ext h) hij
  · exact two_le_countP l p j i h hpj hpi

/-- The string `p` repeated `n` times. -/
def rep_str (n : Nat) (p : String) : String :=
  match n with
  | 0 => ""
  | k + 1 => p ++ rep_str k p

lemma push_repeat_eq (p : String) :
    ∀ (n : Nat) (buf : String), push_repeat n p buf = buf ++ rep_str n p := by
  intro n
  induction n with
  | zero => intro buf; simp [push_repeat, rep_str, String.append_empty]
  | succ k ih =>
    intro buf
    rw [push_repeat, ih, rep_str, ← String.append_assoc]

lemma rep_str_succ_right (p : String) :
    ∀ n : Nat, rep_str (n + 1) p = rep_str n p ++ p := by
  intro n
  induction n with
  | zero => show p ++ "" = "" ++ p; rw [String.append_empty]; rfl
  | succ k ih =>
    show p ++ rep_str (k + 1) p = (p ++ rep_str k p) ++ p
    rw [ih, ← String.append_assoc]

/-- One object-array wrapper level as rendered by the array branches of
`Method::emit`: the element type `t` wrapped in `ObjectArray` together with
the throwable error type `thr`. -/
def wrap_oa (thr t : String) : String :=
  "__jni_bindgen::ObjectArray<" ++ t ++ ", " ++ thr ++ ">"

lemma rep_wrap (thr : String) :
    ∀ (n : Nat) (mid : String),
    rep_str n "__jni_bindgen::ObjectArray<" ++ mid ++ rep_str n (", " ++ thr ++ ">")
      = (wrap_oa thr)^[n] mid := by
  intro n
  induction n with
  | zero =>
    intro mid
    show "" ++ mid ++ "" = mid
    rw [String.append_empty]
    rfl
  | succ k ih =>
    intro mid
    rw [rep_str_succ_right, Function.iterate_succ_apply, ← ih (wrap_oa thr mid)]
    show ((rep_str k _ ++ _) ++ mid) ++ ((", " ++ thr ++ ">") ++ rep_str k (", " ++ thr ++ ">"))
      = rep_str k _ ++ wrap_oa thr mid ++ rep_str k (", " ++ thr ++ ">")
    simp [wrap_oa, String.append_assoc]

lemma arg_array_closed (ctx : Context) (mod_ : String) (n : Nat) (inner : BasicType) :
    (arg_type_info ctx mod_ (.array (n + 1) inner)).1 =
      "impl __jni_bindgen::std::convert::Into<__jni_bindgen::std::option::Option<&\x27env "
        ++ (wrap_oa (ctx.throwable_rust_path mod_))^[n]
             (array_inner_info ctx mod_ "argument type" inner).1
        ++ ">>" := by
  show (push_repeat n (", " ++ ctx.throwable_rust_path mod_ ++ ">")
      (push_repeat n "__jni_bindgen::ObjectArray<"
        "impl __jni_bindgen::std::convert::Into<__jni_bindgen::std::option::Option<&\x27env "
        ++ (array_inner_info ctx mod_ "argument type" inner).1) ++ ">>") = _
  rw [push_repeat_eq, push_repeat_eq, ← rep_wrap]
  simp [String.append_assoc]

lemma ret_array_closed (ctx : Context) (mod_ : String) (n : Nat) (inner : BasicType)
    (hv : inner ≠ .void) :
    (ret_decl_info ctx mod_ (.array (n + 1) inner)).1 =
      "__jni_bindgen::std::option::Option<__jni_bindgen::Local<\x27env, "
        ++ (wrap_oa (ctx.throwable_rust_path mod_))^[n]
             (array_inner_info ctx mod_ "return type" inner).1
        ++ ">>" := by
  have hb : (inner == BasicType.void) = false := by
    simp [hv]
  unfold ret_decl_info
  simp only [hb, Bool.and_false, Bool.false_eq_true, if_false]
  rw [push_repeat_eq, push_repeat_eq, ← rep_wrap]
  simp [String.append_assoc]

lemma array_inner_class_ok (ctx : Context) (mod_ pos c p : String)
    (hp : ctx.java_to_rust_path c mod_ = .ok p) :
    (array_inner_info ctx mod_ pos (.class c)).1
      = wrap_oa (ctx.throwable_rust_path mod_) p := by
  simp only [array_inner_info]
  rw [hp]
  simp [wrap_oa]

lemma mem_reasons_of_arg (ctx : Context) (indent mod_ : String) (m : Method)
    (hsi : m.java.is_static_init = false) {a : MethodType} (ha : a ∈ m.java.args)
    {r : String} (hr : r ∈ (arg_type_info ctx mod_ a).2.1) :
    r ∈ (Method.emit_parts ctx indent mod_ m).reasons := by
  rw [emit_parts_reasons ctx indent mod_ m hsi]
  exact List.mem_append_left _ (List.mem_append_left _
    (List.mem_append_right _ (List.mem_flatMap.mpr ⟨a, ha, hr⟩)))

lemma mem_reasons_of_ret (ctx : Context) (indent mod_ : String) (m : Method)
    (hsi : m.java.is_static_init = false)
    {r : String} (hr : r ∈ (ret_decl_info ctx mod_ m.java.ret).2) :
    r ∈ (Method.emit_parts ctx indent mod_ m).reasons := by
  rw [emit_parts_reasons ctx indent mod_ m hsi]
  exact List.mem_append_left _ (List.mem_append_right _ hr)

lemma mem_reasons_of_ignore (ctx : Context) (indent mod_ : String) (m : Method)
    (hsi : m.java.is_static_init = false) (hig : method_ignored ctx m = true) :
    "[[ignore]]d" ∈ (Method.emit_parts ctx indent mod_ m).reasons := by
  rw [emit_parts_reasons ctx indent mod_ m hsi]
  refine List.mem_append_left _ (List.mem_append_left _ (List.mem_append_left _
    (List.mem_append_left _ (List.mem_append_right _ ?_))))
  simp [ignore_reject_reasons, hig]

lemma mem_reasons_of_ctor (ctx : Context) (indent mod_ : String) (m : Method)
    (hsi : m.java.is_static_init = false) (hc : m.java.is_constructor = true)
    (hv : m.java.ret ≠ .single .void) :
    "ERROR:  Constructor should\x27ve returned void"
      ∈ (Method.emit_parts ctx indent mod_ m).reasons := by
  rw [emit_parts_reasons ctx indent mod_ m hsi]
  refine List.mem_append_right _ ?_
  simp [ctor_adjust, hc, hv]

lemma arg_missing_single (ctx : Context) (mod_ c : String)
    (hmiss : ctx.all_classes.contains c = false) :
    "ERROR:  missing class for argument type"
      ∈ (arg_type_info ctx mod_ (.single (.class c))).2.1 := by
  simp only [arg_type_info, hmiss, Bool.false_eq_true, if_false]
  cases hp : ctx.java_to_rust_path c mod_ <;> simp [hp]

lemma arg_missing_array (ctx : Context) (mod_ c : String) (lv : Nat)
    (hmiss : ctx.all_classes.contains c = false) :
    "ERROR:  missing class for argument type"
      ∈ (arg_type_info ctx mod_ (.array lv (.class c))).2.1 := by
  simp only [arg_type_info, array_inner_info, hmiss, Bool.false_eq_true, if_false]
  cases hp : ctx.java_to_rust_path c mod_ <;> simp [hp]

lemma ret_missing_single (ctx : Context) (mod_ c : String)
    (hmiss : ctx.all_classes.contains c = false) :
    "ERROR:  missing class for return type"
      ∈ (ret_decl_info ctx mod_ (.single (.class c))).2 := by
  simp only [ret_decl_info, hmiss, Bool.false_eq_true, if_false]
  cases hp : ctx.java_to_rust_path c mod_ <;> simp [hp]

lemma ret_missing_array (ctx : Context) (mod_ c : String) (lv : Nat)
    (hmiss : ctx.all_classes.contains c = false) :
    "ERROR:  missing class for return type"
      ∈ (ret_decl_info ctx mod_ (.array lv (.class c))).2 := by
  simp only [ret_decl_info, array_inner_info, hmiss, Bool.false_eq_true, if_false]
  have hb : ((BasicType.class c) == BasicType.void) = false := by simp
  simp only [hb, Bool.and_false, Bool.false_eq_true, if_false]
  cases hp : ctx.java_to_rust_path c mod_ <;> simp [hp]

lemma interfaces_fold_skip (ctx : Context) (mod_ i : String)
    (hi : ctx.all_classes.contains i = false) :
    ∀ (pre post : List String) (impl : Bool) (buf : String),
    interfaces_fold ctx mod_ (pre ++ i :: post) impl buf
      = interfaces_fold ctx mod_ (pre ++ post) impl buf := by
  intro pre
  induction pre with
  | nil =>
    intro post impl buf
    show interfaces_fold ctx mod_ (i :: post) impl buf = _
    rw [interfaces_fold]
    simp only [hi, Bool.not_false, if_true, List.nil_append]
  | cons a rest ih =>
    intro post impl buf
    show interfaces_fold ctx mod_ (a :: (rest ++ i :: post)) impl buf
      = interfaces_fold ctx mod_ (a :: (rest ++ post)) impl buf
    rw [interfaces_fold, interfaces_fold]
    by_cases ha : ctx.all_classes.contains a = true
    · simp only [ha, Bool.not_true, Bool.false_eq_true, if_false]
      cases hp : ctx.java_to_rust_path a mod_ <;> simp only [hp, ih]
    · rw [Bool.not_eq_true] at ha
      simp only [ha, Bool.not_false, if_true]
      exact ih post impl buf

lemma header_skip_missing_interface (ctx : Context) (indent : String) (s : Struct)
    (i : String) (pre post : List String)
    (hif : s.java.interfaces = pre ++ i :: post)
    (hi : ctx.all_classes.contains i = false) :
    Struct.header ctx indent
        { s with java := { s.java with interfaces := pre ++ post } }
      = Struct.header ctx indent s := by
  unfold Struct.header
  simp only [hif, interfaces_fold_skip ctx s.rust.mod_ i hi]

lemma set_mangling_style_style (m : Method) (st : MethodManglingStyle) :
    (m.set_mangling_style st).mangling_style = st := rfl

lemma set_mangling_style_rust_name (m : Method) (st : MethodManglingStyle) :
    (m.set_mangling_style st).rust_name
      = st.mangle m.java.name m.java.descriptor_str := rfl

lemma set_mangling_style_java (m : Method) (st : MethodManglingStyle) :
    (m.set_mangling_style st).java = m.java := rfl

lemma new_rust_name (ctx : Context) (cls : JClass) (jm : JMethod) :
    (Method.new ctx cls jm).rust_name
      = ctx.config.method_naming_style.mangle jm.name jm.descriptor_str := rfl

lemma new_java (ctx : Context) (cls : JClass) (jm : JMethod) :
    (Method.new ctx cls jm).java = jm := rfl

lemma resolved_methods_length (ctx : Context) (s : Struct) :
    (Struct.resolved_methods ctx s).length
      = (Struct.initial_methods ctx s).length := by
  simp [Struct.resolved_methods]

lemma resolved_methods_get (ctx : Context) (s : Struct)
    (i : Fin (Struct.initial_methods ctx s).length) :
    (Struct.resolved_methods ctx s).get
        (Fin.cast (resolved_methods_length ctx s).symm i)
      = resolve_method ctx
          (id_repeats ctx (Struct.initial_methods ctx s) s.java.fields)
          ((Struct.initial_methods ctx s).get i) := by
  simp [Struct.resolved_methods, List.get_eq_getElem, List.getElem_map]

lemma long_mangle_of_base {name d n : String} (hb : mangle_base name = some n) :
    MethodManglingStyle.mangle .long_signature name d = some (n ++ "_" ++ d) := by
  simp [MethodManglingStyle.mangle, hb]

lemma long_mangle_inj {b d1 d2 : String}
    (h : b ++ "_" ++ d1 = b ++ "_" ++ d2) : d1 = d2 := by
  have hd := congrArg String.data h
  simp only [String.data_append] at hd
  exact String.ext (List.append_cancel_left hd)

/-- A baseline configuration: verbatim default style, long collision style,
explicit static environment, rejected emits discarded, no ignores or renames. -/
def cfg_base : Config :=
  { method_naming_style := .java,
    method_naming_style_collision := .long_signature,
    static_env := .explicit,
    keep_rejected_emits := false,
    ignore_class_methods := [],
    ignore_class_method_sigs := [],
    rename_class_methods := [],
    rename_class_method_sigs := [] }

/-- A baseline context over a two-class world with simple collaborators. -/
def ctx_base : Context :=
  { config := cfg_base,
    all_classes := ["java/lang/Object", "java/lang/String", "pkg/Thing"],
    java_to_rust_path := fun c _ => .ok ("crate::" ++ c),
    throwable_rust_path := fun _ => "crate::java::lang::Throwable",
    method_docs_url := fun _ _ => none,
    class_docs_url := fun _ => none,
    field_names := fun _ => none,
    field_emit := fun _ _ _ => "" }

/-- The baseline context with rejected emits kept as commented stubs. -/
def ctx_keep : Context :=
  { ctx_base with config := { cfg_base with keep_rejected_emits := true } }

/-- A public instance method `foo(int): void` on `pkg/Thing`. -/
def jm_foo : JMethod :=
  { name := "foo", is_public := true, is_static := false, is_bridge := false,
    is_constructor := false, is_static_init := false, deprecated := false,
    args := [.single .int], ret := .single .void, descriptor_str := "(I)V" }

/-- A second public overload `foo(int,int): void` on `pkg/Thing`. -/
def jm_foo2 : JMethod :=
  { jm_foo with args := [.single .int, .single .int], descriptor_str := "(II)V" }

/-- A non-public overload `foo(long): void`. -/
def jm_foo_private : JMethod :=
  { jm_foo with is_public := false, args := [.single .long], descriptor_str := "(J)V" }

/-- A static class initializer. -/
def jm_clinit : JMethod :=
  { name := "<clinit>", is_public := false, is_static := true, is_bridge := false,
    is_constructor := false, is_static_init := true, deprecated := false,
    args := [], ret := .single .void, descriptor_str := "()V" }

/-- A public constructor with the mandatory void descriptor return. -/
def jm_ctor : JMethod :=
  { name := "<init>", is_public := true, is_static := false, is_bridge := false,
    is_constructor := true, is_static_init := false, deprecated := false,
    args := [], ret := .single .void, descriptor_str := "()V" }

/-- A constructor whose reflected descriptor claims an int return. -/
def jm_ctor_bad : JMethod :=
  { jm_ctor with ret := .single .int, descriptor_str := "()I" }

/-- A public method whose argument type references an unknown class. -/
def jm_missing_arg : JMethod :=
  { jm_foo with args := [.single (.class "miss/Ing")], descriptor_str := "(Lmiss/Ing;)V" }

/-- The example class `pkg/Thing`. -/
def jc_thing : JClass :=
  { path := "pkg/Thing", is_public := true, is_final := false, is_interface := false,
    is_enum := false, is_static := false, deprecated := false,
    super_path := some "java/lang/Object", interfaces := [],
    methods := [jm_foo], fields := [] }

/-- `pkg/Thing` with the two public `foo` overloads and the non-public one. -/
def jc_overloads : JClass :=
  { jc_thing with methods := [jm_foo, jm_foo2, jm_foo_private] }

/-- The example struct binding for the overloads class. -/
def st_overloads : Struct :=
  { rust := { mod_ := "pkg", struct_name := "Thing" }, java := jc_overloads }

/-- `pkg/Thing` with one public `foo` and one non-public `foo` overload only. -/
def jc_mixed : JClass :=
  { jc_thing with methods := [jm_foo, jm_foo_private] }

/-- The example struct binding for the mixed-visibility class. -/
def st_mixed : Struct :=
  { rust := { mod_ := "pkg", struct_name := "Thing" }, java := jc_mixed }

/-- `pkg/Thing` declaring an interface that is absent from the known-class set. -/
def jc_missing_iface : JClass :=
  { jc_thing with interfaces := ["missing/Iface"], methods := [] }

/-- The same class with the unknown interface removed. -/
def jc_no_iface : JClass :=
  { jc_missing_iface with interfaces := [] }

/-- Struct binding for the class with the unknown interface. -/
def st_missing_iface : Struct :=
  { rust := { mod_ := "pkg", struct_name := "Thing" }, java := jc_missing_iface }

/-- Struct binding for the class without the unknown interface. -/
def st_no_iface : Struct :=
  { rust := { mod_ := "pkg", struct_name := "Thing" }, java := jc_no_iface }

/-- A context in which `pkg/Thing::foo(I)V` is both renamed and ignored,
with rejected emits discarded. -/
def ctx_rename_ignore : Context :=
  { ctx_base with config :=
    { cfg_base with
      ignore_class_methods := ["pkg/Thing\x1ffoo"],
      rename_class_methods := [("pkg/Thing\x1ffoo", "renamed_foo")] } }

/-- The rename-plus-ignore context with rejected emits kept. -/
def ctx_rename_ignore_keep : Context :=
  { ctx_rename_ignore with config :=
    { ctx_rename_ignore.config with keep_rejected_emits := true } }

/-- A thread whose `GetEnv` succeeds with handle 7. -/
def vmb_attached : VMBehavior :=
  { get_env_result := 0, get_env_handle := 7, attach_result := 0, attach_handle := 9 }

/-- C4: a method flagged as a static initializer causes `Method::emit` to
write nothing to the output stream, for every context — any value of
`keep_rejected_emits` and any ignore or rename configuration. -/
theorem c4_static_init_emits_nothing (ctx : Context) (indent mod_ : String)
    (m : Method) (hsi : m.java.is_static_init = true) :
    Method.emit ctx indent mod_ m = "" := by
  unfold Method.emit Method.emit_parts
  simp [hsi]

/-- C4 witness: the static initializer of `pkg/Thing` writes nothing even
under a context that keeps rejected emits and both ignores and renames it. -/
theorem c4_static_init_emits_nothing_witness :
    (Method.new ctx_rename_ignore_keep jc_thing jm_clinit).java.is_static_init = true
    ∧ Method.emit ctx_rename_ignore_keep "" "pkg"
        (Method.new ctx_rename_ignore_keep jc_thing jm_clinit) = "" :=
  ⟨rfl, c4_static_init_emits_nothing ctx_rename_ignore_keep "" "pkg"
    (Method.new ctx_rename_ignore_keep jc_thing jm_clinit) rfl⟩

/-- C8: when `GetEnv` reports the thread as already attached (`JNI_OK`),
`VM::with_env` runs the callback on the existing handle and never calls
`AttachCurrentThread`; an `AttachCurrentThread` call happens only when
`GetEnv` reported `JNI_EDETACHED`. -/
theorem c8_attach_only_when_detached (b : VMBehavior) :
    (b.get_env_result = JNI_OK →
      VM.with_env_trace b
          = ([.get_env_call, .callback_call b.get_env_handle], some b.get_env_handle)
        ∧ VMEvent.attach_current_thread_call ∉ (VM.with_env_trace b).1)
    ∧ (VMEvent.attach_current_thread_call ∈ (VM.with_env_trace b).1 →
        b.get_env_result = JNI_EDETACHED) := by
  constructor
  · intro h
    unfold VM.with_env_trace
    simp [h]
  · intro h
    unfold VM.with_env_trace at h
    by_cases h1 : b.get_env_result = JNI_OK
    · simp [h1] at h
    · by_cases h2 : b.get_env_result = JNI_EDETACHED
      · exact h2
      · by_cases h3 : b.attach_result = JNI_OK <;> simp [h1, h2, h3] at h

/-- C8 witness: on an already-attached thread (`GetEnv` returns `JNI_OK`
writing handle 7), the callback runs on handle 7 and no attach call occurs. -/
theorem c8_attach_only_when_detached_witness :
    VM.with_env_trace vmb_attached
        = ([.get_env_call, .callback_call 7], some 7)
      ∧ VMEvent.attach_current_thread_call ∉ (VM.with_env_trace vmb_attached).1 :=
  (c8_attach_only_when_detached vmb_attached).1 rfl

lemma str_contains_step2 (x a b : String) :
    str_contains ((x ++ a) ++ b) (a ++ b) := by
  rw [String.append_assoc]
  exact str_contains_of_right _ (str_contains_self _)

lemma emit_cstr_closed (s : String) :
    emit_cstr s = String.mk ('"' :: s.data.flatMap escape_debug_char) ++ "\x5c0\"" := by
  apply String.ext
  show (rust_debug s).data.take ((rust_debug s).data.length - 1) ++ _ ++ _ = _
  have hq : (rust_debug s).data
      = ('"' :: s.data.flatMap escape_debug_char) ++ ['"'] := by
    simp [rust_debug]
  rw [hq]
  have hlen : (('"' :: s.data.flatMap escape_debug_char) ++ ['"']).length - 1
      = ('"' :: s.data.flatMap escape_debug_char).length := by
    simp
  rw [hlen, List.take_left, List.drop_left, String.data_append]
  simp

lemma emit_parts_require_cstr (ctx : Context) (indent mod_ : String) (m : Method)
    (hsi : m.java.is_static_init = false)
    (hout : (Method.emit_parts ctx indent mod_ m).output ≠ "") :
    str_contains (Method.emit_parts ctx indent mod_ m).output (emit_cstr m.jclass.path)
    ∧ str_contains (Method.emit_parts ctx indent mod_ m).output (emit_cstr m.java.name)
    ∧ str_contains (Method.emit_parts ctx indent mod_ m).output
        (emit_cstr m.java.descriptor_str) := by
  unfold Method.emit_parts at hout ⊢
  simp only [hsi, Bool.false_eq_true, if_false] at hout ⊢
  split at hout
  · exact absurd rfl hout
  · rename_i hcond
    simp only [if_neg hcond]
    refine ⟨?_, ?_, ?_⟩ <;>
      apply str_contains_concat_of_mem
        (List.mem_cons_of_mem _ (List.mem_cons_of_mem _ (List.mem_cons_of_mem _
          (List.mem_cons_of_mem _ (List.mem_cons_of_mem _ (List.mem_cons_of_mem _
            (List.mem_cons_of_mem _ (List.mem_cons_of_mem _
              (List.mem_cons_self _ _)))))))))
    · apply str_contains_of_left
      apply str_contains_of_left
      apply str_contains_of_left
      apply str_contains_of_left
      apply str_contains_of_left
      exact str_contains_of_right _ (str_contains_self _)
    · apply str_contains_of_left
      apply str_contains_of_left
      apply str_contains_of_left
      exact str_contains_of_right _ (str_contains_self _)
    · apply str_contains_of_left
      exact str_contains_of_right _ (str_contains_self _)

/-- C9: every string `emit_cstr` renders ends in a literal backslash-zero
escape immediately before the closing quote of the debug-formatted literal,
and the class-path, method-name and descriptor literals of the generated
`require_class_method` / `require_class_static_method` call are exactly such
`emit_cstr` renderings, embedded in whatever `Method::emit` writes. -/
theorem c9_require_literals_nul_terminated :
    (∀ s : String,
      emit_cstr s = String.mk ('"' :: s.data.flatMap escape_debug_char) ++ "\x5c0\"")
    ∧ (∀ (ctx : Context) (indent mod_ : String) (m : Method),
        m.java.is_static_init = false →
        (Method.emit_parts ctx indent mod_ m).output ≠ "" →
        str_contains (Method.emit_parts ctx indent mod_ m).output
            (emit_cstr m.jclass.path)
          ∧ str_contains (Method.emit_parts ctx indent mod_ m).output
              (emit_cstr m.java.name)
          ∧ str_contains (Method.emit_parts ctx indent mod_ m).output
              (emit_cstr m.java.descriptor_str)) :=
  ⟨emit_cstr_closed, fun ctx indent mod_ m hsi hout =>
    emit_parts_require_cstr ctx indent mod_ m hsi hout⟩

/-- C9 witness: the concrete rendering of `pkg/Thing` ends in the literal
backslash-zero escape, and the emitted `foo` binding embeds all three
NUL-terminated literals. -/
theorem c9_require_literals_nul_terminated_witness :
    emit_cstr "pkg/Thing" = "\"pkg/Thing\x5c0\""
    ∧ str_contains (Method.emit_parts ctx_base "" "pkg"
        (Method.new ctx_base jc_thing jm_foo)).output (emit_cstr "pkg/Thing") := by
  constructor
  · rw [c9_require_literals_nul_terminated.1 "pkg/Thing"]
    rfl
  · exact (c9_require_literals_nul_terminated.2 ctx_base "" "pkg"
      (Method.new ctx_base jc_thing jm_foo) rfl (by decide)).1

lemma emit_parts_ctor_dispatch (ctx : Context) (indent mod_ : String) (m : Method)
    (hsi : m.java.is_static_init = false) (hc : m.java.is_constructor = true)
    (hout : (Method.emit_parts ctx indent mod_ m).output ≠ "") :
    str_contains (Method.emit_parts ctx indent mod_ m).output
      "__jni_env.new_object_a(__jni_class, __jni_method, __jni_args.as_ptr())" := by
  unfold Method.emit_parts at hout ⊢
  simp only [hsi, Bool.false_eq_true, if_false, hc, if_true] at hout ⊢
  split at hout
  · exact absurd rfl hout
  · rename_i hcond
    simp only [if_neg hcond]
    apply str_contains_concat_of_mem
      (List.mem_cons_of_mem _ (List.mem_cons_of_mem _ (List.mem_cons_of_mem _
        (List.mem_cons_of_mem _ (List.mem_cons_of_mem _ (List.mem_cons_of_mem _
          (List.mem_cons_of_mem _ (List.mem_cons_of_mem _ (List.mem_cons_of_mem _
            (List.mem_cons_self _ _))))))))))
    apply str_contains_of_right
    decide

/-- C3: a constructor whose descriptor returns void is re-typed by
`Method::emit` to return an owned local reference to the struct itself
(`Local` of `Self`) under the object dispatch tag, and whatever it writes
dispatches through `new_object_a`; a constructor whose descriptor returns
anything else records the invariant-violation reject reason and the member is
rejected. -/
theorem c3_constructor_return_and_dispatch (ctx : Context) (indent mod_ : String)
    (m : Method) (hsi : m.java.is_static_init = false)
    (hc : m.java.is_constructor = true) :
    (m.java.ret = .single .void →
      (Method.emit_parts ctx indent mod_ m).ret_decl
          = "__jni_bindgen::Local<\x27env, Self>"
        ∧ (Method.emit_parts ctx indent mod_ m).ret_fragment = "object"
        ∧ ((Method.emit_parts ctx indent mod_ m).output ≠ "" →
            str_contains (Method.emit_parts ctx indent mod_ m).output
              "__jni_env.new_object_a(__jni_class, __jni_method, __jni_args.as_ptr())"))
    ∧ (m.java.ret ≠ .single .void →
      "ERROR:  Constructor should\x27ve returned void"
          ∈ (Method.emit_parts ctx indent mod_ m).reasons
        ∧ (Method.emit_parts ctx indent mod_ m).reasons ≠ []) := by
  constructor
  · intro hret
    obtain ⟨hd, hf⟩ := emit_parts_ret ctx indent mod_ m hsi
    refine ⟨?_, ?_, emit_parts_ctor_dispatch ctx indent mod_ m hsi hc⟩
    · rw [hd]; simp [ctor_adjust, hc, hret]
    · rw [hf]; simp [ctor_adjust, hc, hret]
  · intro hret
    have hm := mem_reasons_of_ctor ctx indent mod_ m hsi hc hret
    exact ⟨hm, List.ne_nil_of_mem hm⟩

/-- C3 witness: the void-returning constructor of `pkg/Thing` is emitted with
return type `Local` of `Self` through `new_object_a`, and the int-returning
constructor records the invariant violation. -/
theorem c3_constructor_return_and_dispatch_witness :
    ((Method.emit_parts ctx_base "" "pkg"
        (Method.new ctx_base jc_thing jm_ctor)).ret_decl
      = "__jni_bindgen::Local<\x27env, Self>")
    ∧ str_contains (Method.emit_parts ctx_base "" "pkg"
        (Method.new ctx_base jc_thing jm_ctor)).output
        "__jni_env.new_object_a(__jni_class, __jni_method, __jni_args.as_ptr())"
    ∧ "ERROR:  Constructor should\x27ve returned void"
        ∈ (Method.emit_parts ctx_base "" "pkg"
            (Method.new ctx_base jc_thing jm_ctor_bad)).reasons := by
  have h1 := (c3_constructor_return_and_dispatch ctx_base "" "pkg"
    (Method.new ctx_base jc_thing jm_ctor) rfl rfl).1 rfl
  have h2 := (c3_constructor_return_and_dispatch ctx_base "" "pkg"
    (Method.new ctx_base jc_thing jm_ctor_bad) rfl rfl).2 (by decide)
  exact ⟨h1.1, h1.2.2 (by decide), h2.1⟩

lemma str_contains_tail3 (x a b c : String) :
    str_contains (((x ++ a) ++ b) ++ c) ((a ++ b) ++ c) := by
  have h : ((x ++ a) ++ b) ++ c = x ++ ((a ++ b) ++ c) := by
    simp [String.append_assoc]
  rw [h]
  exact str_contains_of_right _ (str_contains_self _)

/-- C2 counterexample: `pkg/Thing::foo` matches both a rename entry and an
ignore entry; with `keep_rejected_emits` disabled, `Method::emit` writes
nothing at all — the method is suppressed, not emitted under the renamed
name. -/
theorem c2_rename_ignore_counterexample :
    method_renamed_to ctx_rename_ignore
        (Method.new ctx_rename_ignore jc_thing jm_foo) = some "renamed_foo"
    ∧ method_ignored ctx_rename_ignore
        (Method.new ctx_rename_ignore jc_thing jm_foo) = true
    ∧ ctx_rename_ignore.config.keep_rejected_emits = false
    ∧ Method.emit ctx_rename_ignore "" "pkg"
        (Method.new ctx_rename_ignore jc_thing jm_foo) = "" := by
  refine ⟨by decide, by decide, rfl, ?_⟩
  decide

/-- C2 amended: when a method matches both a rename entry and an ignore
entry, both are evaluated — the renamed name is the name used for whatever is
rendered, but the ignore entry still rejects the method: with
`keep_rejected_emits` disabled nothing is written, and with it enabled the
method appears only as a rejected stub under the renamed name. -/
theorem c2_rename_and_ignore_both_evaluated (ctx : Context) (indent mod_ : String)
    (m : Method) (hsi : m.java.is_static_init = false) (r : String)
    (hren : method_renamed_to ctx m = some r)
    (hig : method_ignored ctx m = true) :
    (Method.emit_parts ctx indent mod_ m).method_name = r
    ∧ "[[ignore]]d" ∈ (Method.emit_parts ctx indent mod_ m).reasons
    ∧ (ctx.config.keep_rejected_emits = false →
        (Method.emit_parts ctx indent mod_ m).output = "")
    ∧ (ctx.config.keep_rejected_emits = true →
        str_contains (Method.emit_parts ctx indent mod_ m).output
          ("fn " ++ r ++ "<\x27env>(")) := by
  have hname : (method_name_step ctx m).1 = r := by
    unfold method_name_step
    rw [hren]
  have hmem := mem_reasons_of_ignore ctx indent mod_ m hsi hig
  refine ⟨by rw [emit_parts_method_name, hname], hmem, ?_, ?_⟩
  · intro hkeep
    exact emit_parts_output_suppressed ctx indent mod_ m hsi hkeep
      (List.ne_nil_of_mem hmem)
  · intro hkeep
    unfold Method.emit_parts
    simp only [hsi, Bool.false_eq_true, if_false, hkeep, Bool.not_true,
      Bool.and_false, if_false, hname]
    apply str_contains_concat_of_mem
      (List.mem_cons_of_mem _ (List.mem_cons_of_mem _ (List.mem_cons_of_mem _
        (List.mem_cons_self _ _))))
    apply str_contains_of_left
    apply str_contains_of_left
    apply str_contains_of_left
    apply str_contains_of_left
    apply str_contains_of_left
    apply str_contains_of_left
    exact str_contains_tail3 _ _ _ _

/-- C2 amended witness: for the doubly-matched `pkg/Thing::foo`, the resolved
name is the renamed one, the ignore reason is recorded, the stub-keeping
configuration renders it as a commented declaration under the renamed name,
and the discarding configuration renders nothing. -/
theorem c2_rename_and_ignore_both_evaluated_witness :
    (Method.emit_parts ctx_rename_ignore_keep "" "pkg"
        (Method.new ctx_rename_ignore_keep jc_thing jm_foo)).method_name
        = "renamed_foo"
    ∧ str_contains (Method.emit_parts ctx_rename_ignore_keep "" "pkg"
        (Method.new ctx_rename_ignore_keep jc_thing jm_foo)).output
        ("fn " ++ "renamed_foo" ++ "<\x27env>(") := by
  have h := c2_rename_and_ignore_both_evaluated ctx_rename_ignore_keep "" "pkg"
    (Method.new ctx_rename_ignore_keep jc_thing jm_foo) rfl "renamed_foo"
    (by decide) (by decide)
  exact ⟨h.1, h.2.2.2 rfl⟩

/-- C5: a method whose parameter or return type references a class absent
from the known-class set is rejected; with `keep_rejected_emits` enabled the
output is a stub containing the exact rejection reason, and with it disabled
`Method::emit` writes nothing at all. -/
theorem c5_missing_class_rejection (ctx : Context) (indent mod_ : String)
    (m : Method) (hsi : m.java.is_static_init = false) (c : String)
    (hmiss : ctx.all_classes.contains c = false) :
    ((MethodType.single (.class c) ∈ m.java.args
        ∨ ∃ lv, MethodType.array lv (.class c) ∈ m.java.args) →
      (Method.emit_parts ctx indent mod_ m).reasons ≠ []
      ∧ (ctx.config.keep_rejected_emits = false →
          (Method.emit_parts ctx indent mod_ m).output = "")
      ∧ (ctx.config.keep_rejected_emits = true →
          str_contains (Method.emit_parts ctx indent mod_ m).output
            "// Not emitting: ERROR:  missing class for argument type"))
    ∧ ((m.java.ret = .single (.class c)
        ∨ ∃ lv, m.java.ret = .array lv (.class c)) →
      (Method.emit_parts ctx indent mod_ m).reasons ≠ []
      ∧ (ctx.config.keep_rejected_emits = false →
          (Method.emit_parts ctx indent mod_ m).output = "")
      ∧ (ctx.config.keep_rejected_emits = true →
          str_contains (Method.emit_parts ctx indent mod_ m).output
            "// Not emitting: ERROR:  missing class for return type")) := by
  constructor
  · intro h
    have hmem : "ERROR:  missing class for argument type"
        ∈ (Method.emit_parts ctx indent mod_ m).reasons := by
      rcases h with ⟨ha⟩ | ⟨lv, ha⟩
      · exact mem_reasons_of_arg ctx indent mod_ m hsi ha
          (arg_missing_single ctx mod_ c hmiss)
      · exact mem_reasons_of_arg ctx indent mod_ m hsi ha
          (arg_missing_array ctx mod_ c lv hmiss)
    refine ⟨List.ne_nil_of_mem hmem, ?_, ?_⟩
    · intro hkeep
      exact emit_parts_output_suppressed ctx indent mod_ m hsi hkeep
        (List.ne_nil_of_mem hmem)
    · intro hkeep
      have hline := emit_parts_reason_line ctx indent mod_ m hsi
        (emit_parts_output_ne_of_keep ctx indent mod_ m hsi hkeep) _ hmem
      exact hline
  · intro h
    have hmem : "ERROR:  missing class for return type"
        ∈ (Method.emit_parts ctx indent mod_ m).reasons := by
      rcases h with hr | ⟨lv, hr⟩
      · refine mem_reasons_of_ret ctx indent mod_ m hsi ?_
        rw [hr]
        exact ret_missing_single ctx mod_ c hmiss
      · refine mem_reasons_of_ret ctx indent mod_ m hsi ?_
        rw [hr]
        exact ret_missing_array ctx mod_ c lv hmiss
    refine ⟨List.ne_nil_of_mem hmem, ?_, ?_⟩
    · intro hkeep
      exact emit_parts_output_suppressed ctx indent mod_ m hsi hkeep
        (List.ne_nil_of_mem hmem)
    · intro hkeep
      have hline := emit_parts_reason_line ctx indent mod_ m hsi
        (emit_parts_output_ne_of_keep ctx indent mod_ m hsi hkeep) _ hmem
      exact hline

/-- C5 witness: `foo(miss/Ing): void` with `miss/Ing` unknown: it is
rejected; the keeping context renders the exact rejection-reason line, the
discarding context renders nothing. -/
theorem c5_missing_class_rejection_witness :
    (Method.emit_parts ctx_base "" "pkg"
        (Method.new ctx_base jc_thing jm_missing_arg)).output = ""
    ∧ str_contains (Method.emit_parts ctx_keep "" "pkg"
        (Method.new ctx_keep jc_thing jm_missing_arg)).output
        "// Not emitting: ERROR:  missing class for argument type" := by
  have h1 := (c5_missing_class_rejection ctx_base "" "pkg"
    (Method.new ctx_base jc_thing jm_missing_arg) rfl "miss/Ing" (by decide)).1
    (Or.inl (by decide))
  have h2 := (c5_missing_class_rejection ctx_keep "" "pkg"
    (Method.new ctx_keep jc_thing jm_missing_arg) rfl "miss/Ing" (by decide)).1
    (Or.inl (by decide))
  exact ⟨h1.2.1 rfl, h2.2.2 rfl⟩

/-- C7: an array type of `n + 1` levels is rendered, in both parameter and
return position, as `n` nested `ObjectArray` wrapper levels around the
innermost element-array expression, where each wrapper level (`wrap_oa`)
carries the throwable error type as its second type argument; an object
element makes the innermost expression itself an `ObjectArray` level carrying
the throwable type. -/
theorem c7_array_nesting (ctx : Context) (mod_ : String) (n : Nat)
    (inner : BasicType) :
    ((arg_type_info ctx mod_ (.array (n + 1) inner)).1 =
      "impl __jni_bindgen::std::convert::Into<__jni_bindgen::std::option::Option<&\x27env "
        ++ (wrap_oa (ctx.throwable_rust_path mod_))^[n]
             (array_inner_info ctx mod_ "argument type" inner).1
        ++ ">>")
    ∧ (inner ≠ .void →
        (ret_decl_info ctx mod_ (.array (n + 1) inner)).1 =
          "__jni_bindgen::std::option::Option<__jni_bindgen::Local<\x27env, "
            ++ (wrap_oa (ctx.throwable_rust_path mod_))^[n]
                 (array_inner_info ctx mod_ "return type" inner).1
            ++ ">>")
    ∧ (∀ c p, inner = .class c → ctx.java_to_rust_path c mod_ = .ok p →
        (array_inner_info ctx mod_ "argument type" inner).1
            = wrap_oa (ctx.throwable_rust_path mod_) p
          ∧ (array_inner_info ctx mod_ "return type" inner).1
            = wrap_oa (ctx.throwable_rust_path mod_) p) := by
  refine ⟨arg_array_closed ctx mod_ n inner, ?_, ?_⟩
  · intro hv
    exact ret_array_closed ctx mod_ n inner hv
  · intro c p hc hp
    subst hc
    exact ⟨array_inner_class_ok ctx mod_ "argument type" c p hp,
      array_inner_class_ok ctx mod_ "return type" c p hp⟩

/-- C7 witness: the three-level `int` array and the two-level `String` array
render with the expected wrapper nesting in both positions. -/
theorem c7_array_nesting_witness :
    (arg_type_info ctx_base "pkg" (.array 3 .int)).1 =
      "impl __jni_bindgen::std::convert::Into<__jni_bindgen::std::option::Option<&\x27env "
        ++ (wrap_oa (ctx_base.throwable_rust_path "pkg"))^[2]
             (array_inner_info ctx_base "pkg" "argument type" .int).1
        ++ ">>"
    ∧ (ret_decl_info ctx_base "pkg" (.array 2 (.class "java/lang/String"))).1 =
      "__jni_bindgen::std::option::Option<__jni_bindgen::Local<\x27env, "
        ++ (wrap_oa (ctx_base.throwable_rust_path "pkg"))^[1]
             (array_inner_info ctx_base "pkg" "return type"
               (.class "java/lang/String")).1
        ++ ">>"
    ∧ (array_inner_info ctx_base "pkg" "return type" (.class "java/lang/String")).1
        = wrap_oa (ctx_base.throwable_rust_path "pkg") "crate::java/lang/String" := by
  refine ⟨(c7_array_nesting ctx_base "pkg" 2 .int).1, ?_, ?_⟩
  · exact (c7_array_nesting ctx_base "pkg" 1 (.class "java/lang/String")).2.1
      (by decide)
  · exact ((c7_array_nesting ctx_base "pkg" 1 (.class "java/lang/String")).2.2
      "java/lang/String" "crate::java/lang/String" rfl rfl).2

/-- C6 counterexample: `pkg/Thing` declares the interface `missing/Iface`,
which is absent from the known-class set; `Struct::write` emits the struct
anyway, with output identical to the same class without the interface — the
reference is silently dropped without any rejection, contradicting the claim
that the referencing member is rejected. -/
theorem c6_missing_interface_counterexample :
    ctx_base.all_classes.contains "missing/Iface" = false
    ∧ Struct.write ctx_base "" st_missing_iface = Struct.write ctx_base "" st_no_iface
    ∧ (Struct.write ctx_base "" st_missing_iface).isSome = true := by
  refine ⟨by decide, ?_, ?_⟩ <;> decide

/-- C6 amended: a parameter-type or return-type reference to a class absent
from the known-class set rejects the referencing method; an implemented
interface absent from the set is silently dropped — the rendered struct
header is identical to that of the same class without the interface, and the
struct is emitted with no rejection recorded. -/
theorem c6_missing_reference_handling (ctx : Context) :
    (∀ (indent mod_ : String) (m : Method), m.java.is_static_init = false →
      ∀ c, ctx.all_classes.contains c = false →
        ((MethodType.single (.class c) ∈ m.java.args
            ∨ ∃ lv, MethodType.array lv (.class c) ∈ m.java.args)
          ∨ (m.java.ret = .single (.class c)
            ∨ ∃ lv, m.java.ret = .array lv (.class c))) →
        (Method.emit_parts ctx indent mod_ m).reasons ≠ [])
    ∧ (∀ (indent : String) (s : Struct) (i : String) (pre post : List String),
        s.java.interfaces = pre ++ i :: post →
        ctx.all_classes.contains i = false →
        Struct.header ctx indent
            { s with java := { s.java with interfaces := pre ++ post } }
          = Struct.header ctx indent s) := by
  constructor
  · intro indent mod_ m hsi c hmiss href
    rcases href with harg | hret
    · rcases harg with ⟨ha⟩ | ⟨lv, ha⟩
      · exact List.ne_nil_of_mem (mem_reasons_of_arg ctx indent mod_ m hsi ha
          (arg_missing_single ctx mod_ c hmiss))
      · exact List.ne_nil_of_mem (mem_reasons_of_arg ctx indent mod_ m hsi ha
          (arg_missing_array ctx mod_ c lv hmiss))
    · rcases hret with hr | ⟨lv, hr⟩
      · have hm : "ERROR:  missing class for return type"
            ∈ (ret_decl_info ctx mod_ m.java.ret).2 := by
          rw [hr]
          exact ret_missing_single ctx mod_ c hmiss
        exact List.ne_nil_of_mem (mem_reasons_of_ret ctx indent mod_ m hsi hm)
      · have hm : "ERROR:  missing class for return type"
            ∈ (ret_decl_info ctx mod_ m.java.ret).2 := by
          rw [hr]
          exact ret_missing_array ctx mod_ c lv hmiss
        exact List.ne_nil_of_mem (mem_reasons_of_ret ctx indent mod_ m hsi hm)
  · intro indent s i pre post hif hi
    exact header_skip_missing_interface ctx indent s i pre post hif hi

/-- C6 amended witness: the method with the unknown argument class is
rejected, and removing the unknown interface from `pkg/Thing` leaves the
rendered header unchanged. -/
theorem c6_missing_reference_handling_witness :
    (Method.emit_parts ctx_base "" "pkg"
        (Method.new ctx_base jc_thing jm_missing_arg)).reasons ≠ []
    ∧ Struct.header ctx_base ""
        { st_missing_iface with java :=
          { st_missing_iface.java with interfaces := [] ++ [] } }
      = Struct.header ctx_base "" st_missing_iface := by
  constructor
  · exact (c6_missing_reference_handling ctx_base).1 "" "pkg"
      (Method.new ctx_base jc_thing jm_missing_arg) rfl "miss/Ing" (by decide)
      (Or.inl (Or.inl (by decide)))
  · exact (c6_missing_reference_handling ctx_base).2 "" st_missing_iface
      "missing/Iface" [] [] rfl (by decide)

lemma initial_rust_name_base (ctx : Context) (s : Struct)
    (hstyle : ctx.config.method_naming_style = .java)
    (i : Fin (Struct.initial_methods ctx s).length) :
    ((Struct.initial_methods ctx s).get i).rust_name
      = mangle_base (((Struct.initial_methods ctx s).get i).java.name) := by
  unfold Struct.initial_methods at i ⊢
  simp [List.get_eq_getElem, List.getElem_map, new_rust_name, new_java, hstyle,
    MethodManglingStyle.mangle]

lemma resolved_restyled (ctx : Context) (s : Struct)
    (i : Fin (Struct.initial_methods ctx s).length) (n : String)
    (hni : ((Struct.initial_methods ctx s).get i).rust_name = some n)
    (hrep : id_repeats ctx (Struct.initial_methods ctx s) s.java.fields n > 1) :
    (Struct.resolved_methods ctx s).get
        (Fin.cast (resolved_methods_length ctx s).symm i)
      = ((Struct.initial_methods ctx s).get i).set_mangling_style
          ctx.config.method_naming_style_collision := by
  rw [resolved_methods_get]
  unfold resolve_method
  rw [hni]
  simp [hrep]

/-- C1: in a class where two distinct public methods resolve to the same
short-style name, `Struct::write` re-styles both with the configured
collision (long, descriptor-qualified) mangling style before they are passed
to `Method::emit`, and — their descriptors being distinct — their resolved
names are no longer identical. -/
theorem c1_collision_long_style_distinct (ctx : Context) (s : Struct)
    (hstyle : ctx.config.method_naming_style = .java)
    (hcol : ctx.config.method_naming_style_collision = .long_signature)
    (i j : Fin (Struct.initial_methods ctx s).length) (hij : i ≠ j) (n : String)
    (hpi : ((Struct.initial_methods ctx s).get i).java.is_public = true)
    (hpj : ((Struct.initial_methods ctx s).get j).java.is_public = true)
    (hni : ((Struct.initial_methods ctx s).get i).rust_name = some n)
    (hnj : ((Struct.initial_methods ctx s).get j).rust_name = some n)
    (hdij : ((Struct.initial_methods ctx s).get i).java.descriptor_str
          ≠ ((Struct.initial_methods ctx s).get j).java.descriptor_str) :
    ((Struct.resolved_methods ctx s).get
        (Fin.cast (resolved_methods_length ctx s).symm i)).mangling_style
        = .long_signature
    ∧ ((Struct.resolved_methods ctx s).get
        (Fin.cast (resolved_methods_length ctx s).symm j)).mangling_style
        = .long_signature
    ∧ ((Struct.resolved_methods ctx s).get
        (Fin.cast (resolved_methods_length ctx s).symm i)).rust_name
      ≠ ((Struct.resolved_methods ctx s).get
          (Fin.cast (resolved_methods_length ctx s).symm j)).rust_name := by
  have hcount : 2 ≤ (Struct.initial_methods ctx s).countP
      (fun m => m.java.is_public && m.rust_name == some n) := by
    refine two_le_countP_of_ne _ _ i j hij ?_ ?_
    · simp only [List.get_eq_getElem] at hpi hni
      simp [hpi, hni]
    · simp only [List.get_eq_getElem] at hpj hnj
      simp [hpj, hnj]
  have hrep : id_repeats ctx (Struct.initial_methods ctx s) s.java.fields n > 1 := by
    unfold id_repeats
    omega
  have hri := resolved_restyled ctx s i n hni hrep
  have hrj := resolved_restyled ctx s j n hnj hrep
  have hbi : mangle_base (((Struct.initial_methods ctx s).get i).java.name) = some n := by
    rw [← initial_rust_name_base ctx s hstyle i]
    exact hni
  have hbj : mangle_base (((Struct.initial_methods ctx s).get j).java.name) = some n := by
    rw [← initial_rust_name_base ctx s hstyle j]
    exact hnj
  refine ⟨?_, ?_, ?_⟩
  · rw [hri, set_mangling_style_style, hcol]
  · rw [hrj, set_mangling_style_style, hcol]
  · rw [hri, hrj, set_mangling_style_rust_name, set_mangling_style_rust_name, hcol,
      long_mangle_of_base hbi, long_mangle_of_base hbj]
    intro heq
    exact hdij (long_mangle_inj (Option.some.inj heq))

/-- C1 witness: the two public `foo` overloads of `pkg/Thing` are both
re-styled to the long style and resolve to distinct names. -/
theorem c1_collision_long_style_distinct_witness :
    ((Struct.resolved_methods ctx_base st_overloads).get
        (Fin.cast (resolved_methods_length ctx_base st_overloads).symm
          ⟨0, by decide⟩)).mangling_style = .long_signature
    ∧ ((Struct.resolved_methods ctx_base st_overloads).get
        (Fin.cast (resolved_methods_length ctx_base st_overloads).symm
          ⟨1, by decide⟩)).mangling_style = .long_signature
    ∧ ((Struct.resolved_methods ctx_base st_overloads).get
        (Fin.cast (resolved_methods_length ctx_base st_overloads).symm
          ⟨0, by decide⟩)).rust_name
      ≠ ((Struct.resolved_methods ctx_base st_overloads).get
          (Fin.cast (resolved_methods_length ctx_base st_overloads).symm
            ⟨1, by decide⟩)).rust_name :=
  c1_collision_long_style_distinct ctx_base st_overloads rfl rfl
    ⟨0, by decide⟩ ⟨1, by decide⟩ (by decide) "foo"
    (by decide) (by decide) (by decide) (by decide) (by decide)

/-- C10: only public methods (and public fields) feed the `id_repeats`
tally: when a non-public method shares a short-style name with exactly one
public method (and no public field produces that name), the count stays at 1
and the public method is passed to `Method::emit` unchanged; yet the
re-mangling pass itself re-styles every method — public or not — whose
resolved name counts more than once. -/
theorem c10_only_public_counted (ctx : Context) (s : Struct) (n : String)
    (k1 k2 : Fin (Struct.initial_methods ctx s).length)
    (hp1 : ((Struct.initial_methods ctx s).get k1).java.is_public = true)
    (hn1 : ((Struct.initial_methods ctx s).get k1).rust_name = some n)
    (hp2 : ((Struct.initial_methods ctx s).get k2).java.is_public = false)
    (hn2 : ((Struct.initial_methods ctx s).get k2).rust_name = some n)
    (hcount : (Struct.initial_methods ctx s).countP
        (fun m => m.java.is_public && m.rust_name == some n) = 1)
    (hfld : field_name_count ctx s.java.fields n = 0) :
    id_repeats ctx (Struct.initial_methods ctx s) s.java.fields n = 1
    ∧ (Struct.resolved_methods ctx s).get
        (Fin.cast (resolved_methods_length ctx s).symm k1)
      = (Struct.initial_methods ctx s).get k1
    ∧ (∀ (k : Fin (Struct.initial_methods ctx s).length) (n2 : String),
        ((Struct.initial_methods ctx s).get k).rust_name = some n2 →
        id_repeats ctx (Struct.initial_methods ctx s) s.java.fields n2 > 1 →
        ((Struct.resolved_methods ctx s).get
            (Fin.cast (resolved_methods_length ctx s).symm k)).mangling_style
          = ctx.config.method_naming_style_collision) := by
  have hrep1 : id_repeats ctx (Struct.initial_methods ctx s) s.java.fields n = 1 := by
    unfold id_repeats
    rw [hcount, hfld]
  refine ⟨hrep1, ?_, ?_⟩
  · rw [resolved_methods_get]
    unfold resolve_method
    rw [hn1]
    simp [hrep1]
  · intro k n2 hk hrep2
    rw [resolved_methods_get]
    unfold resolve_method
    rw [hk]
    simp only [hrep2, if_pos]
    exact set_mangling_style_style _ _

/-- C10 witness: in the class with one public and one non-public `foo`, the
tally for `foo` is 1 and the public method is emitted un-restyled. -/
theorem c10_only_public_counted_witness :
    id_repeats ctx_base (Struct.initial_methods ctx_base st_mixed)
        st_mixed.java.fields "foo" = 1
    ∧ (Struct.resolved_methods ctx_base st_mixed).get
        (Fin.cast (resolved_methods_length ctx_base st_mixed).symm ⟨0, by decide⟩)
      = (Struct.initial_methods ctx_base st_mixed).get ⟨0, by decide⟩ := by
  have h := c10_only_public_counted ctx_base st_mixed "foo"
    ⟨0, by decide⟩ ⟨1, by decide⟩ (by decide) (by decide) (by decide) (by decide)
    (by decide) (by decide)
  exact ⟨h.1, h.2.1⟩
